import Mathlib

/-!
Verification of the code-execution pipeline in `src/run-code/index.js`
(`runCode`), as a shallow embedding.

The embedding mirrors the source:
* `runCode` validates the job (`code === ""`, `supportedLanguages.includes`),
  creates the code file, resolves the command map, runs an optional
  compilation promise, then the execution promise, removes the code file and
  assembles the response.
* Each promise is embedded as a state machine folded over the list of
  asynchronous events (stdout/stderr `data` callbacks, the `setTimeout`
  timer, the `error` event, the `exit`/`close` event) delivered by the
  environment, in arrival order.  The `isResolved` flag of the source is part
  of the state, and the resolved value is recorded in `result`.
* External collaborators (`createCodeFile`, `removeCodeFile`, `info`,
  `commandMap`) are modelled through an `Env` record plus an event trace that
  records each call made by the pipeline.
* The repository's secondary Java runner (`src/unnamed/part_000`,
  `executeJava`) is embedded the same way, as its own promise machine.
-/

namespace RunCode

/-- A single execution request: `{language, code, input}` as destructured by
`runCode`. -/
structure Job where
  language : String
  code : String
  input : String
deriving Repr, DecidableEq

/-- The record returned by `commandMap(jobID, language)`. -/
structure CommandSpec where
  compileCodeCommand : Option String
  compilationArgs : List String
  executeCodeCommand : Option String
  executionArgs : List String
  outputExt : Option String
deriving Repr, DecidableEq

/-- The object `runCode` hands back to its caller.  On the normal path the
source returns `{...result, language, info}` (no `status` key, modelled as
`status = none`); on the compile-failure path it returns
`{...compileResult, info}` where `compileResult` carries `status: 200`. -/
structure Response where
  status : Option Nat
  output : String
  error : String
  language : String
  info : String
deriving Repr, DecidableEq

/-- How one call to `runCode` ends: either the function throws
(`throw {status, error}`) or it returns a response object. -/
inductive RunOutcome
  | thrown (status : Nat) (error : String)
  | returned (resp : Response)
deriving Repr, DecidableEq

/-- Calls the pipeline makes on its collaborators and child processes,
in order. -/
inductive Event
  | createFile
  | spawnCompile
  | killCompile (signal : String)
  | spawnExecute
  | killExecute (signal : String)
  | removeFile
deriving Repr, DecidableEq

/-- JavaScript `a || b` on strings: the empty string is falsy. -/
def strOr (a b : String) : String := if a = "" then b else a

/-- The execute-phase timeout of the source: `const timeout = 10`. -/
def timeoutSecs : Nat := 10

/-- The text appended on execute-phase timeout:
`"\nExecution timed out after " + timeout + " seconds"`. -/
def timeoutNotice : String :=
  "\nExecution timed out after " ++ toString timeoutSecs ++ " seconds"

/-! ## The compilation promise (lines 29–87 of `index.js`) -/

/-- Asynchronous events that can be delivered to the compilation promise:
`stdout`/`stderr` `data` callbacks, the 5 s `setTimeout` firing, the `error`
event of the child, and the `exit` event (`code` is `null`, i.e. `none`, when
the child was killed by a signal). -/
inductive CompileEvt
  | stdoutData (s : String)
  | stderrData (s : String)
  | timerFire
  | errorEvt (msg : String)
  | exitEvt (exitCode : Option Int)
deriving Repr, DecidableEq

/-- A value the compilation promise rejects with:
`{status, output, error}` (the source also spreads in `language`, which the
pipeline re-attaches from the job). -/
structure CompileReject where
  status : Nat
  output : String
  error : String
deriving Repr, DecidableEq

/-- State of the compilation promise: the `compileOutput`/`compileError`
accumulators, the `isResolved` flag, the value the promise settled with
(`Except.error` = `reject`, `Except.ok` = `resolve`), how many times a
settle happened, and the kill signals sent. -/
structure CompileState where
  compileOutput : String
  compileError : String
  isResolved : Bool
  result : Option (Except CompileReject Unit)
  resolveCount : Nat
  kills : List String
deriving Repr

def compileInit : CompileState :=
  { compileOutput := "", compileError := "", isResolved := false,
    result := none, resolveCount := 0, kills := [] }

/-- One event handler of the compilation promise, as written in the source. -/
def compileStep (st : CompileState) (e : CompileEvt) : CompileState :=
  match e with
  | .stdoutData s => { st with compileOutput := st.compileOutput ++ s }
  | .stderrData s => { st with compileError := st.compileError ++ s }
  | .timerFire =>
      if st.isResolved then st else
        { st with isResolved := true,
                  kills := st.kills ++ ["SIGKILL"],
                  result := some (Except.error
                    { status := 200, output := "", error := "Compilation timed out" }),
                  resolveCount := st.resolveCount + 1 }
  | .errorEvt msg =>
      if st.isResolved then st else
        { st with isResolved := true,
                  result := some (Except.error
                    { status := 200, output := "",
                      error := "Compilation error: " ++ msg }),
                  resolveCount := st.resolveCount + 1 }
  | .exitEvt c =>
      if st.isResolved then st else
        if c ≠ some 0 then
          { st with isResolved := true,
                    result := some (Except.error
                      { status := 200, output := "",
                        error := strOr st.compileError
                          (strOr st.compileOutput "Compilation failed") }),
                    resolveCount := st.resolveCount + 1 }
        else
          { st with isResolved := true,
                    result := some (Except.ok ()),
                    resolveCount := st.resolveCount + 1 }

def processCompileFrom (st : CompileState) (l : List CompileEvt) : CompileState :=
  l.foldl compileStep st

/-- The compilation promise run on a list of delivered events. -/
def processCompile (l : List CompileEvt) : CompileState :=
  processCompileFrom compileInit l

/-! ## The execution promise (lines 99–187 of `index.js`) -/

/-- Asynchronous events deliverable to the execution promise.  `closeEvt`
carries the `(code, signal)` pair of the `close` handler. -/
inductive ExecEvt
  | stdoutData (s : String)
  | stderrData (s : String)
  | timerFire
  | errorEvt (msg : String)
  | closeEvt (exitCode : Option Int) (signal : Option String)
deriving Repr, DecidableEq

/-- The record the execution promise resolves with: `{output, error}`. -/
structure ExecResult where
  output : String
  error : String
deriving Repr, DecidableEq

/-- State of the execution promise: the `output`/`error` accumulators, the
`isResolved` flag, the resolved record, the number of resolutions and the
kill signals sent. -/
structure ExecState where
  output : String
  error : String
  isResolved : Bool
  result : Option ExecResult
  resolveCount : Nat
  kills : List String
deriving Repr, DecidableEq

def execInit : ExecState :=
  { output := "", error := "", isResolved := false,
    result := none, resolveCount := 0, kills := [] }

/-- `executeCode.kill("SIGKILL")` may itself fail; the source wraps it in
`try { ... } catch (e) { /* Process already dead */ }`. -/
def attemptKill (killFails : Bool) : Except String Unit :=
  if killFails then Except.error "ESRCH" else Except.ok ()

/-- One event handler of the execution promise, as written in the source.
`killFails` says whether the `kill` call in the timer handler throws. -/
def execStep (killFails : Bool) (st : ExecState) (e : ExecEvt) : ExecState :=
  match e with
  | .stdoutData s => { st with output := st.output ++ s }
  | .stderrData s => { st with error := st.error ++ s }
  | .timerFire =>
      if st.isResolved then st else
        let st' := { st with isResolved := true, kills := st.kills ++ ["SIGKILL"] }
        match attemptKill killFails with
        | Except.ok _ =>
            { st' with
              result := some
                { output := st.output, error := strOr st.error "" ++ timeoutNotice },
              resolveCount := st.resolveCount + 1 }
        | Except.error _ =>
            { st' with
              result := some
                { output := st.output, error := strOr st.error "" ++ timeoutNotice },
              resolveCount := st.resolveCount + 1 }
  | .errorEvt msg =>
      if st.isResolved then st else
        { st with isResolved := true,
                  result := some { output := "", error := "Runtime error: " ++ msg },
                  resolveCount := st.resolveCount + 1 }
  | .closeEvt _ signal =>
      if st.isResolved then st else
        let err := match signal with
          | some sg => st.error ++ "\nProcess terminated by signal: " ++ sg
          | none => st.error
        { st with isResolved := true,
                  error := err,
                  result := some { output := st.output, error := err },
                  resolveCount := st.resolveCount + 1 }

def processExecFrom (killFails : Bool) (st : ExecState) (l : List ExecEvt) : ExecState :=
  l.foldl (execStep killFails) st

/-- The execution promise run on a list of delivered events. -/
def processExec (killFails : Bool) (l : List ExecEvt) : ExecState :=
  processExecFrom killFails execInit l

/-! ## The pipeline (`runCode`) -/

/-- The environment of one `runCode` call: the supported-language list, the
`commandMap` result, the events each child process delivers, whether the
execute-phase `spawn` call itself throws (and with what message), whether the
timer handler's `kill` throws, and the `info(language)` metadata. -/
structure Env where
  supportedLanguages : List String
  spec : CommandSpec
  compileEvts : List CompileEvt
  execSpawnThrow : Option String
  execEvts : List ExecEvt
  killFails : Bool
  infoStr : String

/-- The unsupported-language message of the source. -/
def invalidLanguageMsg (supported : List String) : String :=
  "Please enter a valid language. Check documentation for more details: " ++
  "https://github.com/Jaagrav/CodeX-API#readme. The languages currently " ++
  "supported are: " ++ String.intercalate ", " supported ++ "."

/-- The execution phase (lines 99–187): missing `executeCodeCommand`
resolves at once; a throwing `spawn` resolves with a runtime error;
otherwise the execution promise decides.  Returns the resolved record and
the process-level events, or `none` if the promise never settled (real runs
always settle because a timer is always pending). -/
def runExecPhase (env : Env) : Option (ExecResult × List Event) :=
  match env.spec.executeCodeCommand with
  | none => some ({ output := "", error := "Executable not found" }, [])
  | some _ =>
    match env.execSpawnThrow with
    | some msg =>
        some ({ output := "", error := "Runtime error: " ++ msg }, [Event.spawnExecute])
    | none =>
        match (processExec env.killFails env.execEvts).result with
        | none => none
        | some r =>
            some (r, Event.spawnExecute ::
              (processExec env.killFails env.execEvts).kills.map Event.killExecute)

/-- The whole pipeline.  Produces the outcome together with the trace of
collaborator/process calls, or `none` when a promise never settled. -/
def runCode (job : Job) (env : Env) : Option (RunOutcome × List Event) :=
  if job.code = "" then
    some (RunOutcome.thrown 400 "No Code found to execute.", [])
  else if env.supportedLanguages.contains job.language = false then
    some (RunOutcome.thrown 400 (invalidLanguageMsg env.supportedLanguages), [])
  else
    match env.spec.compileCodeCommand with
    | some _ =>
      match (processCompile env.compileEvts).result with
      | none => none
      | some (Except.error cr) =>
          some (RunOutcome.returned
                  { status := some cr.status, output := cr.output, error := cr.error
                    language := job.language, info := env.infoStr },
                [Event.createFile, Event.spawnCompile] ++
                  (processCompile env.compileEvts).kills.map Event.killCompile ++
                  [Event.removeFile])
      | some (Except.ok _) =>
        match runExecPhase env with
        | none => none
        | some (r, evs) =>
            some (RunOutcome.returned
                    { status := none, output := r.output, error := r.error
                      language := job.language, info := env.infoStr },
                  [Event.createFile, Event.spawnCompile] ++
                    (processCompile env.compileEvts).kills.map Event.killCompile ++
                    evs ++ [Event.removeFile])
    | none =>
      match runExecPhase env with
      | none => none
      | some (r, evs) =>
          some (RunOutcome.returned
                  { status := none, output := r.output, error := r.error
                    language := job.language, info := env.infoStr },
                [Event.createFile] ++ evs ++ [Event.removeFile])

/-! ## Observables of the event lists -/

/-- Is the event a stream `data` callback (as opposed to a settling event)? -/
def isDataE : ExecEvt → Bool
  | .stdoutData _ => true
  | .stderrData _ => true
  | _ => false

/-- Events that settle the execution promise: the timer, the `error`
event, the `close` event. -/
def isTerminalE (e : ExecEvt) : Bool := !(isDataE e)

/-- Stdout text accumulated over a list of events. -/
def accumOut : List ExecEvt → String
  | [] => ""
  | ExecEvt.stdoutData s :: l => s ++ accumOut l
  | _ :: l => accumOut l

/-- Stderr text accumulated over a list of events. -/
def accumErr : List ExecEvt → String
  | [] => ""
  | ExecEvt.stderrData s :: l => s ++ accumErr l
  | _ :: l => accumErr l

def isDataC : CompileEvt → Bool
  | .stdoutData _ => true
  | .stderrData _ => true
  | _ => false

/-- Events that settle the compilation promise: the timer, the `error`
event, the `exit` event. -/
def isTerminalC (e : CompileEvt) : Bool := !(isDataC e)

/-- Compiler stdout accumulated over a list of events. -/
def caccOut : List CompileEvt → String
  | [] => ""
  | CompileEvt.stdoutData s :: l => s ++ caccOut l
  | _ :: l => caccOut l

/-- Compiler stderr accumulated over a list of events. -/
def caccErr : List CompileEvt → String
  | [] => ""
  | CompileEvt.stderrData s :: l => s ++ caccErr l
  | _ :: l => caccErr l

/-- The error text of a failed compilation, by the event that failed it:
a fixed text on timeout, `"Compilation error: "` plus the spawn-error
message, and only for a non-zero `exit` the captured stderr with its
stdout / generic-message fallbacks. -/
def compileFailMsg : CompileEvt → List CompileEvt → String
  | CompileEvt.timerFire, _ => "Compilation timed out"
  | CompileEvt.errorEvt m, _ => "Compilation error: " ++ m
  | CompileEvt.exitEvt _, ds => strOr (caccErr ds) (strOr (caccOut ds) "Compilation failed")
  | _, _ => ""

/-- The compile phase does not reject: either the language has no compile
command, or the compilation promise resolved. -/
def compilePasses (env : Env) : Prop :=
  env.spec.compileCodeCommand = none ∨
    (processCompile env.compileEvts).result = some (Except.ok ())

/-- Whether a call to `runCode` raised (threw) rather than returned:
`some true` = thrown, `some false` = returned, `none` = no settled outcome. -/
def raised (job : Job) (env : Env) : Option Bool :=
  match runCode job env with
  | some (RunOutcome.thrown _ _, _) => some true
  | some (RunOutcome.returned _, _) => some false
  | none => none

/-! ## Concrete instances used to exercise the theorems -/

/-- A job in an interpreted language. -/
def jobPy : Job := { language := "python", code := "x", input := "" }

/-- A job in a compiled language. -/
def jobJava : Job := { language := "java", code := "x", input := "" }

/-- A command spec with no compile step. -/
def pySpec : CommandSpec :=
  { compileCodeCommand := none, compilationArgs := [],
    executeCodeCommand := some "python3", executionArgs := [], outputExt := none }

/-- A command spec with a compile step. -/
def javaSpec : CommandSpec :=
  { compileCodeCommand := some "javac", compilationArgs := [],
    executeCodeCommand := some "java", executionArgs := [], outputExt := some "class" }

/-- A baseline environment: interpreted language, clean run. -/
def baseEnv : Env :=
  { supportedLanguages := ["python", "java"], spec := pySpec,
    compileEvts := [], execSpawnThrow := none,
    execEvts := [ExecEvt.closeEvt (some 0) none],
    killFails := false, infoStr := "i" }

/-! ## The secondary Java runner (`src/unnamed/part_000`) -/

/-- Events deliverable to the Java runner's promise: stream `data`
callbacks, the `exit` event, and its `setTimeout` firing. -/
inductive JavaEvt
  | stdoutData (s : String)
  | stderrData (s : String)
  | exitEvt
  | timerFire
deriving Repr, DecidableEq

/-- The Java runner's timeout: `const timeout = 8`. -/
def javaTimeoutSecs : Nat := 8

/-- The Java runner's rejection text on timeout. -/
def javaTimeoutMsg : String :=
  "Error: Timed Out. Your code took too long to execute, over " ++
  toString javaTimeoutSecs ++ " seconds."

/-- State of the Java runner's promise: the `outputString`/`errorString`
accumulators, the settled value (`Except.error` = `reject`,
`Except.ok` = `resolve`) and the kill signals sent — the source contains
no `kill` call at all, so no handler ever appends to `kills`. -/
structure JavaState where
  outputString : String
  errorString : String
  result : Option (Except String String)
  kills : List String
deriving Repr

/-- A JavaScript promise settles only once: later `resolve`/`reject`
calls are no-ops. -/
def javaSettle (st : JavaState) (v : Except String String) : JavaState :=
  match st.result with
  | some _ => st
  | none => { st with result := some v }

/-- One event handler of the Java runner's promise, as written in the
source: the `exit` handler calls `reject(errorString)` when stderr is
non-empty and then unconditionally calls `resolve(outputString)` (a no-op
if the reject settled first); the timer handler only rejects — it never
kills the child. -/
def javaStep (st : JavaState) (e : JavaEvt) : JavaState :=
  match e with
  | .stdoutData s => { st with outputString := st.outputString ++ s }
  | .stderrData s => { st with errorString := st.errorString ++ s }
  | .exitEvt =>
      let st1 :=
        if st.errorString ≠ "" then javaSettle st (Except.error st.errorString) else st
      javaSettle st1 (Except.ok st1.outputString)
  | .timerFire => javaSettle st (Except.error javaTimeoutMsg)

def javaInit : JavaState :=
  { outputString := "", errorString := "", result := none, kills := [] }

/-- The Java runner's promise run on a list of delivered events. -/
def processJava (l : List JavaEvt) : JavaState :=
  l.foldl javaStep javaInit

/-- The record the Java runner hands back: `{success: true, output}` when
the promise resolves, `{success: false, error}` when it rejects (built in
the `catch`).  The wall-clock `timestamp` field is omitted. -/
inductive JavaResult
  | success (output : String)
  | failure (error : String)
deriving Repr, DecidableEq

/-- `executeJava` of the source (which delegates to the runner's own
`runCode`): await the promise and wrap its settlement; `none` = the
promise never settled. -/
def executeJava (l : List JavaEvt) : Option JavaResult :=
  match (processJava l).result with
  | none => none
  | some (Except.ok o) => some (JavaResult.success o)
  | some (Except.error e) => some (JavaResult.failure e)

@[simp] theorem strOr_empty_right (a : String) : strOr a "" = a := by
  by_cases h : a = "" <;> simp [strOr, h]

theorem strOr_ne_empty (a b : String) (hb : b ≠ "") : strOr a b ≠ "" := by
  unfold strOr
  by_cases h : a = ""
  · rw [if_pos h]; exact hb
  · rw [if_neg h]; exact h

/-! ## Generic lemmas: the execution promise machine -/

theorem processExecFrom_nil (kf : Bool) (st : ExecState) :
    processExecFrom kf st [] = st := rfl

theorem processExecFrom_cons (kf : Bool) (st : ExecState) (e : ExecEvt) (l : List ExecEvt) :
    processExecFrom kf st (e :: l) = processExecFrom kf (execStep kf st e) l := rfl

theorem processExecFrom_append (kf : Bool) (st : ExecState) (l l' : List ExecEvt) :
    processExecFrom kf st (l ++ l') = processExecFrom kf (processExecFrom kf st l) l' := by
  simp [processExecFrom, List.foldl_append]

/-- The `killFails` flag never changes the machine's behaviour: the
`try/catch` around `kill` swallows the failure. -/
theorem execStep_killFails (kf : Bool) (st : ExecState) (e : ExecEvt) :
    execStep kf st e = execStep false st e := by
  cases kf <;> cases e <;> rfl

theorem processExecFrom_killFails (kf : Bool) (st : ExecState) (l : List ExecEvt) :
    processExecFrom kf st l = processExecFrom false st l := by
  induction l generalizing st with
  | nil => rfl
  | cons e l ih =>
      rw [processExecFrom_cons, processExecFrom_cons, execStep_killFails, ih]

/-- Once `isResolved` is set, no later event changes the settled value,
the resolution count, or the kill record. -/
theorem execStep_resolved (kf : Bool) (st : ExecState) (e : ExecEvt)
    (h : st.isResolved = true) :
    (execStep kf st e).isResolved = true ∧ (execStep kf st e).result = st.result ∧
    (execStep kf st e).resolveCount = st.resolveCount ∧
    (execStep kf st e).kills = st.kills := by
  cases e <;> simp [execStep, h]

theorem processExecFrom_resolved (kf : Bool) (st : ExecState) (l : List ExecEvt)
    (h : st.isResolved = true) :
    (processExecFrom kf st l).isResolved = true ∧
    (processExecFrom kf st l).result = st.result ∧
    (processExecFrom kf st l).resolveCount = st.resolveCount ∧
    (processExecFrom kf st l).kills = st.kills := by
  induction l generalizing st with
  | nil => simp [processExecFrom_nil, h]
  | cons e l ih =>
      have h1 := execStep_resolved kf st e h
      have h2 := ih (execStep kf st e) h1.1
      rw [processExecFrom_cons]
      exact ⟨h2.1, h2.2.1.trans h1.2.1, h2.2.2.1.trans h1.2.2.1, h2.2.2.2.trans h1.2.2.2⟩

/-- Stream `data` events only append to the accumulators. -/
theorem processExecFrom_data (kf : Bool) (st : ExecState) (ds : List ExecEvt)
    (h : ∀ e ∈ ds, isDataE e = true) :
    processExecFrom kf st ds =
      { st with output := st.output ++ accumOut ds, error := st.error ++ accumErr ds } := by
  induction ds generalizing st with
  | nil => simp [processExecFrom_nil, accumOut, accumErr]
  | cons e l ih =>
      have he : isDataE e = true := h e (List.mem_cons_self e l)
      have hl : ∀ x ∈ l, isDataE x = true := fun x hx => h x (List.mem_cons_of_mem e hx)
      cases e with
      | stdoutData s =>
          rw [processExecFrom_cons]
          show processExecFrom kf { st with output := st.output ++ s } l = _
          rw [ih _ hl]
          simp [accumOut, accumErr, String.append_assoc]
      | stderrData s =>
          rw [processExecFrom_cons]
          show processExecFrom kf { st with error := st.error ++ s } l = _
          rw [ih _ hl]
          simp [accumOut, accumErr, String.append_assoc]
      | timerFire => simp [isDataE] at he
      | errorEvt m => simp [isDataE] at he
      | closeEvt c sg => simp [isDataE] at he

/-- Splitting a run at its first settling event. -/
theorem processExec_split (kf : Bool) (ds : List ExecEvt) (t : ExecEvt)
    (rest : List ExecEvt) (hd : ∀ e ∈ ds, isDataE e = true) :
    processExec kf (ds ++ t :: rest) =
      processExecFrom kf
        (execStep kf { execInit with output := accumOut ds, error := accumErr ds } t)
        rest := by
  rw [processExec, processExecFrom_append, processExecFrom_data kf execInit ds hd,
    processExecFrom_cons]
  simp [execInit]

/-- The timer handler, from an unresolved state. -/
theorem execStep_timer (kf : Bool) (st : ExecState) (h : st.isResolved = false) :
    execStep kf st ExecEvt.timerFire =
      { st with
        isResolved := true,
        kills := st.kills ++ ["SIGKILL"],
        result := some { output := st.output, error := strOr st.error "" ++ timeoutNotice },
        resolveCount := st.resolveCount + 1 } := by
  cases kf <;> simp [execStep, attemptKill, h]

/-- The `error` handler, from an unresolved state. -/
theorem execStep_error (kf : Bool) (st : ExecState) (msg : String)
    (h : st.isResolved = false) :
    execStep kf st (ExecEvt.errorEvt msg) =
      { st with
        isResolved := true,
        result := some { output := "", error := "Runtime error: " ++ msg },
        resolveCount := st.resolveCount + 1 } := by
  simp [execStep, h]

/-- The `close` handler with no signal, from an unresolved state. -/
theorem execStep_close_noSignal (kf : Bool) (st : ExecState) (c : Option Int)
    (h : st.isResolved = false) :
    execStep kf st (ExecEvt.closeEvt c none) =
      { st with
        isResolved := true,
        result := some { output := st.output, error := st.error },
        resolveCount := st.resolveCount + 1 } := by
  simp [execStep, h]

/-- A settling event from an unresolved state sets `isResolved` and bumps
the resolution count by one. -/
theorem execStep_terminal (kf : Bool) (st : ExecState) (e : ExecEvt)
    (h : st.isResolved = false) (ht : isTerminalE e = true) :
    (execStep kf st e).isResolved = true ∧
    (execStep kf st e).resolveCount = st.resolveCount + 1 := by
  cases e with
  | stdoutData s => simp [isTerminalE, isDataE] at ht
  | stderrData s => simp [isTerminalE, isDataE] at ht
  | timerFire => rw [execStep_timer kf st h]; exact ⟨rfl, rfl⟩
  | errorEvt m => rw [execStep_error kf st m h]; exact ⟨rfl, rfl⟩
  | closeEvt c sg => simp [execStep, h]

/-- A `data` event leaves the resolution bookkeeping untouched. -/
theorem execStep_data (kf : Bool) (st : ExecState) (e : ExecEvt)
    (hd : isDataE e = true) :
    (execStep kf st e).isResolved = st.isResolved ∧
    (execStep kf st e).resolveCount = st.resolveCount ∧
    (execStep kf st e).result = st.result := by
  cases e with
  | stdoutData s => simp [execStep]
  | stderrData s => simp [execStep]
  | timerFire => simp [isDataE] at hd
  | errorEvt m => simp [isDataE] at hd
  | closeEvt c sg => simp [isDataE] at hd

/-- From an unresolved state, the machine resolves exactly once iff some
settling event is delivered. -/
theorem processExecFrom_count (kf : Bool) (st : ExecState) (l : List ExecEvt)
    (h : st.isResolved = false) :
    (processExecFrom kf st l).resolveCount =
      st.resolveCount + (if l.any isTerminalE then 1 else 0) ∧
    (processExecFrom kf st l).isResolved = l.any isTerminalE := by
  induction l generalizing st with
  | nil => simp [processExecFrom_nil, h]
  | cons e l ih =>
      rw [processExecFrom_cons]
      by_cases he : isTerminalE e = true
      · have hstep := execStep_terminal kf st e h he
        have habs := processExecFrom_resolved kf (execStep kf st e) l hstep.1
        refine ⟨?_, ?_⟩
        · rw [habs.2.2.1, hstep.2]
          simp [List.any_cons, he]
        · rw [habs.1]; simp [List.any_cons, he]
      · have hd : isDataE e = true := by
          cases hdd : isDataE e
          · exact absurd (by simp [isTerminalE, hdd]) he
          · rfl
        have hstep := execStep_data kf st e hd
        have := ih (execStep kf st e) (hstep.1.trans h)
        refine ⟨?_, ?_⟩
        · rw [this.1, hstep.2.1]
          simp [List.any_cons, show isTerminalE e = false by simpa using he]
        · rw [this.2]
          simp [List.any_cons, show isTerminalE e = false by simpa using he]

/-- Once settled, appending further events never changes the settled value. -/
theorem processExec_stable (kf : Bool) (l extra : List ExecEvt)
    (h : (processExec kf l).isResolved = true) :
    (processExec kf (l ++ extra)).result = (processExec kf l).result := by
  rw [processExec, processExecFrom_append]
  exact (processExecFrom_resolved kf _ extra h).2.1

/-! ## Generic lemmas: the compilation promise machine -/

theorem processCompileFrom_nil (st : CompileState) :
    processCompileFrom st [] = st := rfl

theorem processCompileFrom_cons (st : CompileState) (e : CompileEvt) (l : List CompileEvt) :
    processCompileFrom st (e :: l) = processCompileFrom (compileStep st e) l := rfl

theorem processCompileFrom_append (st : CompileState) (l l' : List CompileEvt) :
    processCompileFrom st (l ++ l') =
      processCompileFrom (processCompileFrom st l) l' := by
  simp [processCompileFrom, List.foldl_append]

/-- Once `isResolved` is set, no later event changes the settled value,
the resolution count, or the kill record. -/
theorem compileStep_resolved (st : CompileState) (e : CompileEvt)
    (h : st.isResolved = true) :
    (compileStep st e).isResolved = true ∧ (compileStep st e).result = st.result ∧
    (compileStep st e).resolveCount = st.resolveCount ∧
    (compileStep st e).kills = st.kills := by
  cases e <;> simp [compileStep, h]

theorem processCompileFrom_resolved (st : CompileState) (l : List CompileEvt)
    (h : st.isResolved = true) :
    (processCompileFrom st l).isResolved = true ∧
    (processCompileFrom st l).result = st.result ∧
    (processCompileFrom st l).resolveCount = st.resolveCount ∧
    (processCompileFrom st l).kills = st.kills := by
  induction l generalizing st with
  | nil => simp [processCompileFrom_nil, h]
  | cons e l ih =>
      have h1 := compileStep_resolved st e h
      have h2 := ih (compileStep st e) h1.1
      rw [processCompileFrom_cons]
      exact ⟨h2.1, h2.2.1.trans h1.2.1, h2.2.2.1.trans h1.2.2.1, h2.2.2.2.trans h1.2.2.2⟩

/-- Stream `data` events only append to the accumulators. -/
theorem processCompileFrom_data (st : CompileState) (ds : List CompileEvt)
    (h : ∀ e ∈ ds, isDataC e = true) :
    processCompileFrom st ds =
      { st with
        compileOutput := st.compileOutput ++ caccOut ds,
        compileError := st.compileError ++ caccErr ds } := by
  induction ds generalizing st with
  | nil => simp [processCompileFrom_nil, caccOut, caccErr]
  | cons e l ih =>
      have hl : ∀ x ∈ l, isDataC x = true := fun x hx => h x (List.mem_cons_of_mem e hx)
      cases e with
      | stdoutData s =>
          rw [processCompileFrom_cons]
          show processCompileFrom { st with compileOutput := st.compileOutput ++ s } l = _
          rw [ih _ hl]
          simp [caccOut, caccErr, String.append_assoc]
      | stderrData s =>
          rw [processCompileFrom_cons]
          show processCompileFrom { st with compileError := st.compileError ++ s } l = _
          rw [ih _ hl]
          simp [caccOut, caccErr, String.append_assoc]
      | timerFire => exact absurd (h _ (List.mem_cons_self _ l)) (by simp [isDataC])
      | errorEvt m => exact absurd (h _ (List.mem_cons_self _ l)) (by simp [isDataC])
      | exitEvt c => exact absurd (h _ (List.mem_cons_self _ l)) (by simp [isDataC])

/-- Splitting a compile run at its first settling event. -/
theorem processCompile_split (ds : List CompileEvt) (t : CompileEvt)
    (rest : List CompileEvt) (hd : ∀ e ∈ ds, isDataC e = true) :
    processCompile (ds ++ t :: rest) =
      processCompileFrom
        (compileStep
          { compileInit with compileOutput := caccOut ds, compileError := caccErr ds } t)
        rest := by
  rw [processCompile, processCompileFrom_append, processCompileFrom_data compileInit ds hd,
    processCompileFrom_cons]
  simp [compileInit]

theorem compileStep_terminal (st : CompileState) (e : CompileEvt)
    (h : st.isResolved = false) (ht : isTerminalC e = true) :
    (compileStep st e).isResolved = true ∧
    (compileStep st e).resolveCount = st.resolveCount + 1 := by
  cases e with
  | stdoutData s => simp [isTerminalC, isDataC] at ht
  | stderrData s => simp [isTerminalC, isDataC] at ht
  | timerFire => simp [compileStep, h]
  | errorEvt m => simp [compileStep, h]
  | exitEvt c =>
      by_cases hc : c = some 0 <;> simp [compileStep, h, hc]

theorem compileStep_data (st : CompileState) (e : CompileEvt)
    (hd : isDataC e = true) :
    (compileStep st e).isResolved = st.isResolved ∧
    (compileStep st e).resolveCount = st.resolveCount ∧
    (compileStep st e).result = st.result := by
  cases e with
  | stdoutData s => simp [compileStep]
  | stderrData s => simp [compileStep]
  | timerFire => simp [isDataC] at hd
  | errorEvt m => simp [isDataC] at hd
  | exitEvt c => simp [isDataC] at hd

/-- From an unresolved state, the compile machine settles exactly once iff
some settling event is delivered. -/
theorem processCompileFrom_count (st : CompileState) (l : List CompileEvt)
    (h : st.isResolved = false) :
    (processCompileFrom st l).resolveCount =
      st.resolveCount + (if l.any isTerminalC then 1 else 0) ∧
    (processCompileFrom st l).isResolved = l.any isTerminalC := by
  induction l generalizing st with
  | nil => simp [processCompileFrom_nil, h]
  | cons e l ih =>
      rw [processCompileFrom_cons]
      by_cases he : isTerminalC e = true
      · have hstep := compileStep_terminal st e h he
        have habs := processCompileFrom_resolved (compileStep st e) l hstep.1
        refine ⟨?_, ?_⟩
        · rw [habs.2.2.1, hstep.2]
          simp [List.any_cons, he]
        · rw [habs.1]; simp [List.any_cons, he]
      · have hd : isDataC e = true := by
          cases hdd : isDataC e
          · exact absurd (by simp [isTerminalC, hdd]) he
          · rfl
        have hstep := compileStep_data st e hd
        have := ih (compileStep st e) (hstep.1.trans h)
        refine ⟨?_, ?_⟩
        · rw [this.1, hstep.2.1]
          simp [List.any_cons, show isTerminalC e = false by simpa using he]
        · rw [this.2]
          simp [List.any_cons, show isTerminalC e = false by simpa using he]

/-- Once settled, appending further events never changes the settled value. -/
theorem processCompile_stable (l extra : List CompileEvt)
    (h : (processCompile l).isResolved = true) :
    (processCompile (l ++ extra)).result = (processCompile l).result := by
  rw [processCompile, processCompileFrom_append]
  exact (processCompileFrom_resolved _ extra h).2.1

/-! ## The settled value at the first settling event -/

/-- Execute phase: the timer fires first.  Partial stdout is kept, the
timeout notice is appended to the accumulated stderr, and one `SIGKILL` is
sent. -/
theorem processExec_first_timer (kf : Bool) (ds rest : List ExecEvt)
    (hd : ∀ e ∈ ds, isDataE e = true) :
    (processExec kf (ds ++ ExecEvt.timerFire :: rest)).result =
      some { output := accumOut ds, error := accumErr ds ++ timeoutNotice } ∧
    (processExec kf (ds ++ ExecEvt.timerFire :: rest)).kills = ["SIGKILL"] := by
  have hsplit := processExec_split kf ds ExecEvt.timerFire rest hd
  set st0 : ExecState := { execInit with output := accumOut ds, error := accumErr ds }
    with hst0
  rw [execStep_timer kf st0 rfl] at hsplit
  rw [hsplit]
  have habs := processExecFrom_resolved kf
    { st0 with
      isResolved := true,
      kills := st0.kills ++ ["SIGKILL"],
      result := some { output := st0.output, error := strOr st0.error "" ++ timeoutNotice },
      resolveCount := st0.resolveCount + 1 } rest rfl
  constructor
  · rw [habs.2.1]; simp [hst0, execInit]
  · rw [habs.2.2.2]; simp [hst0, execInit]

/-- Execute phase: the `error` event (spawn failure) fires first.  The
output is emptied and the error names a runtime error. -/
theorem processExec_first_error (kf : Bool) (ds rest : List ExecEvt) (msg : String)
    (hd : ∀ e ∈ ds, isDataE e = true) :
    (processExec kf (ds ++ ExecEvt.errorEvt msg :: rest)).result =
      some { output := "", error := "Runtime error: " ++ msg } := by
  have hsplit := processExec_split kf ds (ExecEvt.errorEvt msg) rest hd
  set st0 : ExecState := { execInit with output := accumOut ds, error := accumErr ds }
    with hst0
  rw [execStep_error kf st0 msg rfl] at hsplit
  rw [hsplit]
  have habs := processExecFrom_resolved kf
    { st0 with
      isResolved := true,
      result := some { output := "", error := "Runtime error: " ++ msg },
      resolveCount := st0.resolveCount + 1 } rest rfl
  rw [habs.2.1]

/-- Execute phase: a signal-free `close` fires first.  Both accumulators
are surfaced verbatim. -/
theorem processExec_first_close (kf : Bool) (ds rest : List ExecEvt) (c : Option Int)
    (hd : ∀ e ∈ ds, isDataE e = true) :
    (processExec kf (ds ++ ExecEvt.closeEvt c none :: rest)).result =
      some { output := accumOut ds, error := accumErr ds } := by
  have hsplit := processExec_split kf ds (ExecEvt.closeEvt c none) rest hd
  set st0 : ExecState := { execInit with output := accumOut ds, error := accumErr ds }
    with hst0
  rw [execStep_close_noSignal kf st0 c rfl] at hsplit
  rw [hsplit]
  have habs := processExecFrom_resolved kf
    { st0 with
      isResolved := true,
      result := some { output := st0.output, error := st0.error },
      resolveCount := st0.resolveCount + 1 } rest rfl
  rw [habs.2.1]

/-- Compile phase: a settling event other than `exit(0)` fires first.  The
promise rejects with status 200, empty output and `compileFailMsg`. -/
theorem processCompile_first_fail (ds : List CompileEvt) (t : CompileEvt)
    (rest : List CompileEvt) (hd : ∀ e ∈ ds, isDataC e = true)
    (ht : isTerminalC t = true) (hne : t ≠ CompileEvt.exitEvt (some 0)) :
    (processCompile (ds ++ t :: rest)).result =
      some (Except.error { status := 200, output := "", error := compileFailMsg t ds }) := by
  have hsplit := processCompile_split ds t rest hd
  set st0 : CompileState :=
    { compileInit with compileOutput := caccOut ds, compileError := caccErr ds }
    with hst0
  rw [hsplit]
  cases t with
  | stdoutData s => simp [isTerminalC, isDataC] at ht
  | stderrData s => simp [isTerminalC, isDataC] at ht
  | timerFire =>
      have hstep : compileStep st0 CompileEvt.timerFire =
          { st0 with
            isResolved := true,
            kills := st0.kills ++ ["SIGKILL"],
            result := some (Except.error
              { status := 200, output := "", error := "Compilation timed out" }),
            resolveCount := st0.resolveCount + 1 } := by
        simp [compileStep, hst0, compileInit]
      rw [hstep]
      have habs := processCompileFrom_resolved
        { st0 with
          isResolved := true,
          kills := st0.kills ++ ["SIGKILL"],
          result := some (Except.error
            { status := 200, output := "", error := "Compilation timed out" }),
          resolveCount := st0.resolveCount + 1 } rest rfl
      rw [habs.2.1]
      simp [compileFailMsg]
  | errorEvt m =>
      have hstep : compileStep st0 (CompileEvt.errorEvt m) =
          { st0 with
            isResolved := true,
            result := some (Except.error
              { status := 200, output := "", error := "Compilation error: " ++ m }),
            resolveCount := st0.resolveCount + 1 } := by
        simp [compileStep, hst0, compileInit]
      rw [hstep]
      have habs := processCompileFrom_resolved
        { st0 with
          isResolved := true,
          result := some (Except.error
            { status := 200, output := "", error := "Compilation error: " ++ m }),
          resolveCount := st0.resolveCount + 1 } rest rfl
      rw [habs.2.1]
      simp [compileFailMsg]
  | exitEvt c =>
      have hc : c ≠ some 0 := fun hh => hne (by rw [hh])
      have hstep : compileStep st0 (CompileEvt.exitEvt c) =
          { st0 with
            isResolved := true,
            result := some (Except.error
              { status := 200, output := "",
                error := strOr st0.compileError (strOr st0.compileOutput "Compilation failed") }),
            resolveCount := st0.resolveCount + 1 } := by
        simp [compileStep, hst0, compileInit, hc]
      rw [hstep]
      have habs := processCompileFrom_resolved
        { st0 with
          isResolved := true,
          result := some (Except.error
            { status := 200, output := "",
              error := strOr st0.compileError (strOr st0.compileOutput "Compilation failed") }),
          resolveCount := st0.resolveCount + 1 } rest rfl
      rw [habs.2.1]
      simp [compileFailMsg, hst0, compileInit]

/-- Compile phase: the child exits 0 first.  The promise resolves. -/
theorem processCompile_first_ok (ds rest : List CompileEvt)
    (hd : ∀ e ∈ ds, isDataC e = true) :
    (processCompile (ds ++ CompileEvt.exitEvt (some 0) :: rest)).result =
      some (Except.ok ()) := by
  have hsplit := processCompile_split ds (CompileEvt.exitEvt (some 0)) rest hd
  set st0 : CompileState :=
    { compileInit with compileOutput := caccOut ds, compileError := caccErr ds }
    with hst0
  rw [hsplit]
  have hstep : compileStep st0 (CompileEvt.exitEvt (some 0)) =
      { st0 with
        isResolved := true,
        result := some (Except.ok ()),
        resolveCount := st0.resolveCount + 1 } := by
    simp [compileStep, hst0, compileInit]
  rw [hstep]
  have habs := processCompileFrom_resolved
    { st0 with
      isResolved := true,
      result := some (Except.ok ()),
      resolveCount := st0.resolveCount + 1 } rest rfl
  rw [habs.2.1]

/-! ## Pipeline-level helper lemmas -/

/-- Empty code throws `{status: 400, error: "No Code found to execute."}`. -/
theorem runCode_emptyCode (job : Job) (env : Env) (h : job.code = "") :
    runCode job env = some (RunOutcome.thrown 400 "No Code found to execute.", []) := by
  simp [runCode, h]

/-- An unsupported language throws `{status: 400, error: ...}`. -/
theorem runCode_badLanguage (job : Job) (env : Env) (h1 : ¬ job.code = "")
    (h2 : env.supportedLanguages.contains job.language = false) :
    runCode job env =
      some (RunOutcome.thrown 400 (invalidLanguageMsg env.supportedLanguages), []) := by
  have h2m : job.language ∉ env.supportedLanguages := by simpa using h2
  simp [runCode, h1, h2m]

/-- A rejected compilation promise: the artifact is removed and the
rejection record is returned, spread with `language` and `info`. -/
theorem runCode_compile_fail (job : Job) (env : Env) (cc : String) (cr : CompileReject)
    (h1 : ¬ job.code = "")
    (h2 : env.supportedLanguages.contains job.language = true)
    (hc : env.spec.compileCodeCommand = some cc)
    (hr : (processCompile env.compileEvts).result = some (Except.error cr)) :
    runCode job env =
      some (RunOutcome.returned
              { status := some cr.status, output := cr.output, error := cr.error,
                language := job.language, info := env.infoStr },
            [Event.createFile, Event.spawnCompile] ++
              (processCompile env.compileEvts).kills.map Event.killCompile ++
              [Event.removeFile]) := by
  have h2m : job.language ∈ env.supportedLanguages := by simpa using h2
  simp [runCode, h1, h2m, hc, hr]

/-- No compile command: the execute phase's record is returned after the
artifact removal. -/
theorem runCode_nocompile (job : Job) (env : Env) (r : ExecResult) (evs : List Event)
    (h1 : ¬ job.code = "")
    (h2 : env.supportedLanguages.contains job.language = true)
    (hc : env.spec.compileCodeCommand = none)
    (hr : runExecPhase env = some (r, evs)) :
    runCode job env =
      some (RunOutcome.returned
              { status := none, output := r.output, error := r.error,
                language := job.language, info := env.infoStr },
            [Event.createFile] ++ evs ++ [Event.removeFile]) := by
  have h2m : job.language ∈ env.supportedLanguages := by simpa using h2
  simp [runCode, h1, h2m, hc, hr]

/-- A resolved compilation promise: the execute phase runs and its record
is returned after the artifact removal. -/
theorem runCode_compile_ok (job : Job) (env : Env) (cc : String) (r : ExecResult)
    (evs : List Event)
    (h1 : ¬ job.code = "")
    (h2 : env.supportedLanguages.contains job.language = true)
    (hc : env.spec.compileCodeCommand = some cc)
    (hok : (processCompile env.compileEvts).result = some (Except.ok ()))
    (hr : runExecPhase env = some (r, evs)) :
    runCode job env =
      some (RunOutcome.returned
              { status := none, output := r.output, error := r.error,
                language := job.language, info := env.infoStr },
            [Event.createFile, Event.spawnCompile] ++
              (processCompile env.compileEvts).kills.map Event.killCompile ++
              evs ++ [Event.removeFile]) := by
  have h2m : job.language ∈ env.supportedLanguages := by simpa using h2
  simp [runCode, h1, h2m, hc, hok, hr]

/-- Whenever the compile phase passes, the pipeline returns the execute
phase's record; the prefix of the trace contains neither an execute spawn
nor a removal. -/
theorem runCode_execPhase (job : Job) (env : Env) (r : ExecResult) (evs : List Event)
    (h1 : ¬ job.code = "")
    (h2 : env.supportedLanguages.contains job.language = true)
    (hcp : compilePasses env)
    (hr : runExecPhase env = some (r, evs)) :
    ∃ pre, runCode job env =
        some (RunOutcome.returned
                { status := none, output := r.output, error := r.error,
                  language := job.language, info := env.infoStr },
              pre ++ evs ++ [Event.removeFile]) ∧
      Event.removeFile ∉ pre ∧ Event.spawnExecute ∉ pre := by
  cases hcc : env.spec.compileCodeCommand with
  | none =>
      exact ⟨[Event.createFile], runCode_nocompile job env r evs h1 h2 hcc hr, by simp, by simp⟩
  | some cc =>
      cases hcp with
      | inl h => rw [hcc] at h; exact absurd h (by simp)
      | inr hok =>
          refine ⟨[Event.createFile, Event.spawnCompile] ++
              (processCompile env.compileEvts).kills.map Event.killCompile, ?_, ?_, ?_⟩
          · have := runCode_compile_ok job env cc r evs h1 h2 hcc hok hr
            rw [this]
          · simp
          · simp

/-- The execute phase never removes or creates files itself. -/
theorem runExecPhase_no_remove (env : Env) (r : ExecResult) (evs : List Event)
    (h : runExecPhase env = some (r, evs)) :
    Event.removeFile ∉ evs ∧ Event.createFile ∉ evs := by
  unfold runExecPhase at h
  split at h
  · rw [Option.some.injEq, Prod.mk.injEq] at h
    rw [← h.2]
    simp
  · split at h
    · rw [Option.some.injEq, Prod.mk.injEq] at h
      rw [← h.2]
      simp
    · split at h
      · exact absurd h (by simp)
      · rw [Option.some.injEq, Prod.mk.injEq] at h
        rw [← h.2]
        constructor
        · simp
        · simp

/-- The missing-command and spawn-throw execute outcomes, and the
promise-decided one. -/
theorem runExecPhase_noCmd (env : Env) (h : env.spec.executeCodeCommand = none) :
    runExecPhase env = some ({ output := "", error := "Executable not found" }, []) := by
  simp [runExecPhase, h]

theorem runExecPhase_spawnThrow (env : Env) (x msg : String)
    (h : env.spec.executeCodeCommand = some x) (ht : env.execSpawnThrow = some msg) :
    runExecPhase env =
      some ({ output := "", error := "Runtime error: " ++ msg }, [Event.spawnExecute]) := by
  simp [runExecPhase, h, ht]

theorem runExecPhase_promise (env : Env) (x : String) (r : ExecResult)
    (h : env.spec.executeCodeCommand = some x) (ht : env.execSpawnThrow = none)
    (hr : (processExec env.killFails env.execEvts).result = some r) :
    runExecPhase env =
      some (r, Event.spawnExecute ::
        (processExec env.killFails env.execEvts).kills.map Event.killExecute) := by
  simp [runExecPhase, h, ht, hr]

/-- For a validated job, a settled pipeline always returns a response
object; it never throws. -/
theorem runCode_valid_returned (job : Job) (env : Env) (out : RunOutcome)
    (trace : List Event)
    (h1 : ¬ job.code = "")
    (h2 : env.supportedLanguages.contains job.language = true)
    (h : runCode job env = some (out, trace)) :
    ∃ resp, out = RunOutcome.returned resp := by
  have h2m : job.language ∈ env.supportedLanguages := by simpa using h2
  unfold runCode at h
  rw [if_neg h1] at h
  rw [if_neg (by simp [h2m])] at h
  split at h
  · split at h
    · exact absurd h (by simp)
    · rw [Option.some.injEq, Prod.mk.injEq] at h
      exact ⟨_, h.1.symm⟩
    · split at h
      · exact absurd h (by simp)
      · rw [Option.some.injEq, Prod.mk.injEq] at h
        exact ⟨_, h.1.symm⟩
  · split at h
    · exact absurd h (by simp)
    · rw [Option.some.injEq, Prod.mk.injEq] at h
      exact ⟨_, h.1.symm⟩

/-- A string with a non-empty left part stays non-empty after append. -/
theorem append_ne_empty_left (a b : String) (ha : a.length ≠ 0) : a ++ b ≠ "" := by
  intro h
  have h2 := congrArg String.length h
  rw [String.length_append, String.length_empty] at h2
  omega

/-- Every error text a failed compilation can produce is non-empty. -/
theorem compileFailMsg_ne_empty (t : CompileEvt) (ds : List CompileEvt)
    (ht : isTerminalC t = true) : compileFailMsg t ds ≠ "" := by
  cases t with
  | stdoutData s => simp [isTerminalC, isDataC] at ht
  | stderrData s => simp [isTerminalC, isDataC] at ht
  | timerFire => exact (by decide : ("Compilation timed out" : String) ≠ "")
  | errorEvt m => exact append_ne_empty_left _ _ (by decide)
  | exitEvt c => exact strOr_ne_empty _ _ (strOr_ne_empty _ _ (by decide))

@[simp] theorem count_removeFile_killCompile (ks : List String) :
    (ks.map Event.killCompile).count Event.removeFile = 0 := by
  rw [List.count_eq_zero]; simp

@[simp] theorem count_removeFile_killExecute (ks : List String) :
    (ks.map Event.killExecute).count Event.removeFile = 0 := by
  rw [List.count_eq_zero]; simp

/-! ## The claims -/

/-- C1: for every Job that reaches the materialization step (the artifact
was created, i.e. `createFile` is in the trace), the artifact removal is
invoked exactly once before the pipeline returns, on every terminal path:
compile failure of any kind, missing execute command, execute spawn error,
execute timeout, and normal completion. -/
theorem c1_artifact_removed_exactly_once (job : Job) (env : Env)
    (out : RunOutcome) (trace : List Event)
    (h : runCode job env = some (out, trace))
    (hcr : Event.createFile ∈ trace) :
    trace.count Event.removeFile = 1 := by
  by_cases h1 : job.code = ""
  · rw [runCode_emptyCode job env h1, Option.some.injEq, Prod.mk.injEq] at h
    rw [← h.2] at hcr
    simp at hcr
  cases h2 : env.supportedLanguages.contains job.language with
  | false =>
      rw [runCode_badLanguage job env h1 h2, Option.some.injEq, Prod.mk.injEq] at h
      rw [← h.2] at hcr
      simp at hcr
  | true =>
      have h2m : job.language ∈ env.supportedLanguages := by simpa using h2
      cases hcc : env.spec.compileCodeCommand with
      | some cc =>
          cases hres : (processCompile env.compileEvts).result with
          | none =>
              have hnone : runCode job env = none := by
                simp [runCode, h1, h2m, hcc, hres]
              rw [hnone] at h
              exact absurd h (by simp)
          | some res =>
              cases res with
              | error cr =>
                  rw [runCode_compile_fail job env cc cr h1 h2 hcc hres,
                    Option.some.injEq, Prod.mk.injEq] at h
                  rw [← h.2]
                  simp [List.count_append]
              | ok u =>
                  cases hre : runExecPhase env with
                  | none =>
                      have hnone : runCode job env = none := by
                        simp [runCode, h1, h2m, hcc, hres, hre]
                      rw [hnone] at h
                      exact absurd h (by simp)
                  | some pr =>
                      obtain ⟨r, evs⟩ := pr
                      rw [runCode_compile_ok job env cc r evs h1 h2 hcc (by rw [hres]) hre,
                        Option.some.injEq, Prod.mk.injEq] at h
                      rw [← h.2]
                      have h0 : evs.count Event.removeFile = 0 :=
                        List.count_eq_zero.mpr (runExecPhase_no_remove env r evs hre).1
                      simp [List.count_append, h0]
      | none =>
          cases hre : runExecPhase env with
          | none =>
              have hnone : runCode job env = none := by
                simp [runCode, h1, h2m, hcc, hre]
              rw [hnone] at h
              exact absurd h (by simp)
          | some pr =>
              obtain ⟨r, evs⟩ := pr
              rw [runCode_nocompile job env r evs h1 h2 hcc hre,
                Option.some.injEq, Prod.mk.injEq] at h
              rw [← h.2]
              have h0 : evs.count Event.removeFile = 0 :=
                List.count_eq_zero.mpr (runExecPhase_no_remove env r evs hre).1
              simp [List.count_append, h0]

/-- Witness for C1: a concrete run that created its artifact removes it
exactly once. -/
theorem c1_artifact_removed_exactly_once_witness :
    runCode jobPy baseEnv =
      some (RunOutcome.returned
              { status := none, output := "", error := "",
                language := "python", info := "i" },
            [Event.createFile, Event.spawnExecute, Event.removeFile]) ∧
    Event.createFile ∈ [Event.createFile, Event.spawnExecute, Event.removeFile] ∧
    [Event.createFile, Event.spawnExecute, Event.removeFile].count Event.removeFile = 1 :=
  ⟨rfl, by decide,
   c1_artifact_removed_exactly_once jobPy baseEnv _ _ rfl (by decide)⟩

/-- C2: when the execute-phase deadline timer fires before the child
settles, the returned response's `output` is exactly the stdout
accumulated so far and its `error` is the accumulated stderr with the
timeout notice appended after it. -/
theorem c2_timeout_preserves_partial_output (job : Job) (env : Env)
    (ds rest : List ExecEvt) (x : String)
    (h1 : ¬ job.code = "")
    (h2 : env.supportedLanguages.contains job.language = true)
    (hcp : compilePasses env)
    (hx : env.spec.executeCodeCommand = some x)
    (hs : env.execSpawnThrow = none)
    (he : env.execEvts = ds ++ ExecEvt.timerFire :: rest)
    (hd : ∀ e ∈ ds, isDataE e = true) :
    ∃ resp trace, runCode job env = some (RunOutcome.returned resp, trace) ∧
      resp.output = accumOut ds ∧
      resp.error = accumErr ds ++ timeoutNotice := by
  have hres := (processExec_first_timer env.killFails ds rest hd).1
  rw [← he] at hres
  have hexec := runExecPhase_promise env x _ hx hs hres
  obtain ⟨pre, hrun, -, -⟩ := runCode_execPhase job env _ _ h1 h2 hcp hexec
  exact ⟨_, _, hrun, rfl, rfl⟩

/-- Witness for C2: stdout `"part"` and stderr `"warn"` arrive, then the
timer fires. -/
theorem c2_timeout_preserves_partial_output_witness :
    ∃ resp trace,
      runCode jobPy
          { baseEnv with
            execEvts := [ExecEvt.stdoutData "part", ExecEvt.stderrData "warn",
              ExecEvt.timerFire] } =
        some (RunOutcome.returned resp, trace) ∧
      resp.output = accumOut [ExecEvt.stdoutData "part", ExecEvt.stderrData "warn"] ∧
      resp.error = accumErr [ExecEvt.stdoutData "part", ExecEvt.stderrData "warn"] ++
        timeoutNotice :=
  c2_timeout_preserves_partial_output jobPy
    { baseEnv with
      execEvts := [ExecEvt.stdoutData "part", ExecEvt.stderrData "warn",
        ExecEvt.timerFire] }
    [ExecEvt.stdoutData "part", ExecEvt.stderrData "warn"] [] "python3"
    (by decide) rfl (Or.inl rfl) rfl rfl rfl (by decide)

/-- C5 (amended): in the main pipeline (`index.js`), an execute-phase
child that terminates on its own (no spawn failure, no timeout) with a
non-zero exit code or stderr output still yields a structurally
successful outcome: the pipeline returns (does not throw), `output` is
the accumulated stdout and `error` is the program's own stderr verbatim.
The secondary Java runner of `part_000` does not satisfy this — see its
counterexample. -/
theorem c5_program_error_is_normal_outcome (job : Job) (env : Env)
    (ds rest : List ExecEvt) (c : Option Int) (x : String)
    (h1 : ¬ job.code = "")
    (h2 : env.supportedLanguages.contains job.language = true)
    (hcp : compilePasses env)
    (hx : env.spec.executeCodeCommand = some x)
    (hs : env.execSpawnThrow = none)
    (he : env.execEvts = ds ++ ExecEvt.closeEvt c none :: rest)
    (hd : ∀ e ∈ ds, isDataE e = true)
    (_hprog : c ≠ some 0 ∨ accumErr ds ≠ "") :
    ∃ resp trace, runCode job env = some (RunOutcome.returned resp, trace) ∧
      resp.output = accumOut ds ∧
      resp.error = accumErr ds := by
  have hres := processExec_first_close env.killFails ds rest c hd
  rw [← he] at hres
  have hexec := runExecPhase_promise env x _ hx hs hres
  obtain ⟨pre, hrun, -, -⟩ := runCode_execPhase job env _ _ h1 h2 hcp hexec
  exact ⟨_, _, hrun, rfl, rfl⟩

/-- C5 (counterexample): in the cited secondary Java runner
(`src/unnamed/part_000`, lines 25–40), a child that writes stdout
`"out"`, writes stderr `"err"` and then exits naturally — no spawn
failure, no timeout — is rejected by the `exit` handler and surfaces as a
`success: false` record carrying only the stderr text: the accumulated
stdout `"out"` is discarded, not returned in an `output` field, refuting
the claim for that runner. -/
theorem c5_counterexample_java_runner_rejects_on_stderr :
    executeJava [JavaEvt.stdoutData "out", JavaEvt.stderrData "err", JavaEvt.exitEvt] =
      some (JavaResult.failure "err") ∧
    some (JavaResult.failure "err") ≠ some (JavaResult.success "out") :=
  ⟨rfl, by decide⟩

/-- Witness for the amended C5: the child prints `"out"`, writes `"err"`
to stderr and exits 1. -/
theorem c5_program_error_is_normal_outcome_witness :
    ∃ resp trace,
      runCode jobPy
          { baseEnv with
            execEvts := [ExecEvt.stdoutData "out", ExecEvt.stderrData "err",
              ExecEvt.closeEvt (some 1) none] } =
        some (RunOutcome.returned resp, trace) ∧
      resp.output = accumOut [ExecEvt.stdoutData "out", ExecEvt.stderrData "err"] ∧
      resp.error = accumErr [ExecEvt.stdoutData "out", ExecEvt.stderrData "err"] :=
  c5_program_error_is_normal_outcome jobPy
    { baseEnv with
      execEvts := [ExecEvt.stdoutData "out", ExecEvt.stderrData "err",
        ExecEvt.closeEvt (some 1) none] }
    [ExecEvt.stdoutData "out", ExecEvt.stderrData "err"] [] (some 1) "python3"
    (by decide) rfl (Or.inl rfl) rfl rfl rfl (by decide)
    (Or.inl (by decide))

/-- C3 (counterexample): a compilation failure — `javac` exits 1 with
stderr `"boom"` — is NOT raised to the caller: `runCode` returns a
response object (`raised = some false`), refuting the claim that
compilation errors are raised as pipeline-level failures. -/
theorem c3_counterexample_compile_error_not_raised :
    raised jobJava
        { baseEnv with
          spec := javaSpec,
          compileEvts := [CompileEvt.stderrData "boom", CompileEvt.exitEvt (some 1)] } =
      some false ∧
    runCode jobJava
        { baseEnv with
          spec := javaSpec,
          compileEvts := [CompileEvt.stderrData "boom", CompileEvt.exitEvt (some 1)] } =
      some (RunOutcome.returned
              { status := some 200, output := "", error := "boom",
                language := "java", info := "i" },
            [Event.createFile, Event.spawnCompile, Event.removeFile]) :=
  ⟨rfl, rfl⟩

/-- C3 (amended): only Request errors (empty code, unsupported language)
are raised to the caller, always with status 400; compilation errors and
every execute-phase condition are returned inside the response payload
rather than raised. -/
theorem c3_amended_only_request_errors_raised (job : Job) (env : Env)
    (out : RunOutcome) (trace : List Event)
    (h : runCode job env = some (out, trace)) :
    ((∃ s e, out = RunOutcome.thrown s e) ↔
      (job.code = "" ∨ env.supportedLanguages.contains job.language = false)) ∧
    (∀ s e, out = RunOutcome.thrown s e → s = 400) := by
  by_cases h1 : job.code = ""
  · rw [runCode_emptyCode job env h1, Option.some.injEq, Prod.mk.injEq] at h
    rw [← h.1]
    constructor
    · exact ⟨fun _ => Or.inl h1, fun _ => ⟨400, _, rfl⟩⟩
    · intro s e hse
      injection hse with hs he
      exact hs.symm
  cases h2 : env.supportedLanguages.contains job.language with
  | false =>
      rw [runCode_badLanguage job env h1 h2, Option.some.injEq, Prod.mk.injEq] at h
      rw [← h.1]
      constructor
      · exact ⟨fun _ => Or.inr rfl, fun _ => ⟨400, _, rfl⟩⟩
      · intro s e hse
        injection hse with hs he
        exact hs.symm
  | true =>
      obtain ⟨resp, rfl⟩ := runCode_valid_returned job env out trace h1 h2 h
      constructor
      · constructor
        · rintro ⟨s, e, hse⟩
          exact absurd hse (by simp)
        · rintro (hc | hl)
          · exact absurd hc h1
          · exact absurd hl (by simp)
      · intro s e hse
        exact absurd hse (by simp)

/-- Witness for the amended C3, at a validated concrete run. -/
theorem c3_amended_only_request_errors_raised_witness :
    ((∃ s e, RunOutcome.returned
          { status := none, output := "", error := "",
            language := "python", info := "i" } = RunOutcome.thrown s e) ↔
      (jobPy.code = "" ∨ baseEnv.supportedLanguages.contains jobPy.language = false)) ∧
    (∀ s e, RunOutcome.returned
          { status := none, output := "", error := "",
            language := "python", info := "i" } = RunOutcome.thrown s e → s = 400) :=
  c3_amended_only_request_errors_raised jobPy baseEnv _
    [Event.createFile, Event.spawnExecute, Event.removeFile] rfl

/-- C4 (counterexample): a compile phase that times out while stderr
already holds `"boom"` returns the fixed text `"Compilation timed out"`,
not the captured stderr — refuting the claimed stderr/stdout/generic
preference order for the timeout case. -/
theorem c4_counterexample_timeout_ignores_captured_stderr :
    runCode jobJava
        { baseEnv with
          spec := javaSpec,
          compileEvts := [CompileEvt.stderrData "boom", CompileEvt.timerFire] } =
      some (RunOutcome.returned
              { status := some 200, output := "", error := "Compilation timed out",
                language := "java", info := "i" },
            [Event.createFile, Event.spawnCompile, Event.killCompile "SIGKILL",
              Event.removeFile]) ∧
    ("Compilation timed out" : String) ≠ strOr "boom" (strOr "" "Compilation failed") :=
  ⟨rfl, by decide⟩

/-- C4 (amended): when the compile phase ends in spawn error, non-zero
exit, or timeout, the execute phase is never started (no `spawnExecute`
in the trace) and the artifact is removed exactly once; the returned
error text is the captured stderr (falling back to stdout, then a generic
message) only for a non-zero exit, while a timeout yields the fixed text
`"Compilation timed out"` and a spawn error yields
`"Compilation error: "` plus the system message, as `compileFailMsg`
states. -/
theorem c4_amended_compile_failure_blocks_execute (job : Job) (env : Env)
    (cc : String) (ds : List CompileEvt) (t : CompileEvt) (rest : List CompileEvt)
    (h1 : ¬ job.code = "")
    (h2 : env.supportedLanguages.contains job.language = true)
    (hc : env.spec.compileCodeCommand = some cc)
    (he : env.compileEvts = ds ++ t :: rest)
    (hd : ∀ e ∈ ds, isDataC e = true)
    (ht : isTerminalC t = true)
    (hne : t ≠ CompileEvt.exitEvt (some 0)) :
    ∃ trace, runCode job env =
        some (RunOutcome.returned
                { status := some 200, output := "", error := compileFailMsg t ds,
                  language := job.language, info := env.infoStr }, trace) ∧
      Event.spawnExecute ∉ trace ∧
      trace.count Event.removeFile = 1 := by
  have hres := processCompile_first_fail ds t rest hd ht hne
  rw [← he] at hres
  have hrun := runCode_compile_fail job env cc
    { status := 200, output := "", error := compileFailMsg t ds } h1 h2 hc hres
  refine ⟨_, hrun, ?_, ?_⟩
  · simp
  · simp [List.count_append]

/-- Witness for the amended C4: a non-zero compiler exit with captured
stderr `"boom"`. -/
theorem c4_amended_compile_failure_blocks_execute_witness :
    ∃ trace,
      runCode jobJava
          { baseEnv with
            spec := javaSpec,
            compileEvts := [CompileEvt.stderrData "boom",
              CompileEvt.exitEvt (some 2)] } =
        some (RunOutcome.returned
                { status := some 200, output := "",
                  error := compileFailMsg (CompileEvt.exitEvt (some 2))
                    [CompileEvt.stderrData "boom"],
                  language := "java", info := "i" }, trace) ∧
      Event.spawnExecute ∉ trace ∧
      trace.count Event.removeFile = 1 :=
  c4_amended_compile_failure_blocks_execute jobJava
    { baseEnv with
      spec := javaSpec,
      compileEvts := [CompileEvt.stderrData "boom", CompileEvt.exitEvt (some 2)] }
    "javac" [CompileEvt.stderrData "boom"] (CompileEvt.exitEvt (some 2)) []
    (by decide) rfl rfl rfl (by decide) rfl (by decide)

/-- C6 (amended): in the main pipeline (`index.js`), when the deadline
timer fires while the execute child has not yet settled, the runner sends
exactly one `SIGKILL` (an unrecoverable signal) and then resolves with
the accumulated output; whether the kill call itself throws (`killFails`)
never changes the machine's behaviour — the failure is swallowed.  The
secondary Java runner of `part_000` issues no kill on timeout — see its
counterexample. -/
theorem c6_timer_kills_with_sigkill_and_swallows_kill_failure
    (ds rest : List ExecEvt) (hd : ∀ e ∈ ds, isDataE e = true) :
    (∀ kf l, processExec kf l = processExec false l) ∧
    (processExec true (ds ++ ExecEvt.timerFire :: rest)).kills = ["SIGKILL"] ∧
    (processExec true (ds ++ ExecEvt.timerFire :: rest)).result =
      some { output := accumOut ds, error := accumErr ds ++ timeoutNotice } := by
  refine ⟨fun kf l => ?_, (processExec_first_timer true ds rest hd).2,
    (processExec_first_timer true ds rest hd).1⟩
  rw [processExec, processExec, processExecFrom_killFails]

/-- C6 (counterexample): in the cited secondary Java runner
(`src/unnamed/part_000`, lines 30–34), the timeout handler only rejects
with a timeout message; no kill is ever issued (`kills` stays empty, as
the source contains no `kill` call), so the child is not forcibly
terminated and survives the response — refuting the claim for that
runner. -/
theorem c6_counterexample_java_runner_timeout_never_kills :
    (processJava [JavaEvt.timerFire]).kills = [] ∧
    executeJava [JavaEvt.timerFire] = some (JavaResult.failure javaTimeoutMsg) :=
  ⟨rfl, rfl⟩

/-- Witness for the amended C6, with stdout `"loop"` accumulated before
the timer. -/
theorem c6_timer_kills_with_sigkill_and_swallows_kill_failure_witness :
    (processExec true [ExecEvt.stdoutData "loop", ExecEvt.timerFire] =
      processExec false [ExecEvt.stdoutData "loop", ExecEvt.timerFire]) ∧
    (processExec true ([ExecEvt.stdoutData "loop"] ++ ExecEvt.timerFire :: [])).kills =
      ["SIGKILL"] ∧
    (processExec true ([ExecEvt.stdoutData "loop"] ++ ExecEvt.timerFire :: [])).result =
      some { output := accumOut [ExecEvt.stdoutData "loop"],
             error := accumErr [ExecEvt.stdoutData "loop"] ++ timeoutNotice } :=
  ⟨(c6_timer_kills_with_sigkill_and_swallows_kill_failure
      [ExecEvt.stdoutData "loop"] [] (by decide)).1 true
      [ExecEvt.stdoutData "loop", ExecEvt.timerFire],
   (c6_timer_kills_with_sigkill_and_swallows_kill_failure
      [ExecEvt.stdoutData "loop"] [] (by decide)).2.1,
   (c6_timer_kills_with_sigkill_and_swallows_kill_failure
      [ExecEvt.stdoutData "loop"] [] (by decide)).2.2⟩

/-- C7: a Job with empty `code` or an unsupported `language` fails
immediately with a thrown status-400 error, an empty call trace — no
artifact is ever created and no process is ever spawned. -/
theorem c7_validation_rejects_without_side_effects (job : Job) (env : Env)
    (h : job.code = "" ∨ env.supportedLanguages.contains job.language = false) :
    ∃ msg, runCode job env = some (RunOutcome.thrown 400 msg, []) := by
  by_cases h1 : job.code = ""
  · exact ⟨_, runCode_emptyCode job env h1⟩
  · cases h with
    | inl hc => exact absurd hc h1
    | inr hl => exact ⟨_, runCode_badLanguage job env h1 hl⟩

/-- Witness for C7: an unsupported language. -/
theorem c7_validation_rejects_without_side_effects_witness :
    ∃ msg, runCode { language := "cobol", code := "x", input := "" } baseEnv =
      some (RunOutcome.thrown 400 msg, []) :=
  c7_validation_rejects_without_side_effects
    { language := "cobol", code := "x", input := "" } baseEnv (Or.inr rfl)

/-- C8: for a Job that reaches the execute phase, a missing execute
command, a throwing `spawn` call, or an execute `error` event (nonexistent
binary, permission denied) each produce a returned result with empty
`output` and a non-empty `error` naming the condition, and the artifact is
still removed exactly once. -/
theorem c8_execute_infra_errors_normalized (job : Job) (env : Env)
    (h1 : ¬ job.code = "")
    (h2 : env.supportedLanguages.contains job.language = true)
    (hcp : compilePasses env) :
    (env.spec.executeCodeCommand = none →
      ∃ trace, runCode job env =
          some (RunOutcome.returned
                  { status := none, output := "", error := "Executable not found",
                    language := job.language, info := env.infoStr }, trace) ∧
        trace.count Event.removeFile = 1 ∧
        ("Executable not found" : String) ≠ "") ∧
    (∀ x msg, env.spec.executeCodeCommand = some x → env.execSpawnThrow = some msg →
      ∃ trace, runCode job env =
          some (RunOutcome.returned
                  { status := none, output := "", error := "Runtime error: " ++ msg,
                    language := job.language, info := env.infoStr }, trace) ∧
        trace.count Event.removeFile = 1 ∧
        "Runtime error: " ++ msg ≠ "") ∧
    (∀ x msg ds rest, env.spec.executeCodeCommand = some x →
      env.execSpawnThrow = none →
      env.execEvts = ds ++ ExecEvt.errorEvt msg :: rest →
      (∀ e ∈ ds, isDataE e = true) →
      ∃ trace, runCode job env =
          some (RunOutcome.returned
                  { status := none, output := "", error := "Runtime error: " ++ msg,
                    language := job.language, info := env.infoStr }, trace) ∧
        trace.count Event.removeFile = 1 ∧
        "Runtime error: " ++ msg ≠ "") := by
  refine ⟨?_, ?_, ?_⟩
  · intro hx
    have hexec := runExecPhase_noCmd env hx
    obtain ⟨pre, hrun, hpre, -⟩ := runCode_execPhase job env _ _ h1 h2 hcp hexec
    refine ⟨_, hrun, ?_, by decide⟩
    have h0 : pre.count Event.removeFile = 0 := List.count_eq_zero.mpr hpre
    simp [List.count_append, h0]
  · intro x msg hx hthrow
    have hexec := runExecPhase_spawnThrow env x msg hx hthrow
    obtain ⟨pre, hrun, hpre, -⟩ := runCode_execPhase job env _ _ h1 h2 hcp hexec
    refine ⟨_, hrun, ?_, append_ne_empty_left _ _ (by decide)⟩
    have h0 : pre.count Event.removeFile = 0 := List.count_eq_zero.mpr hpre
    simp [List.count_append, h0]
  · intro x msg ds rest hx hthrow he hd
    have hres := processExec_first_error env.killFails ds rest msg hd
    rw [← he] at hres
    have hexec := runExecPhase_promise env x _ hx hthrow hres
    obtain ⟨pre, hrun, hpre, -⟩ := runCode_execPhase job env _ _ h1 h2 hcp hexec
    refine ⟨_, hrun, ?_, append_ne_empty_left _ _ (by decide)⟩
    have h0 : pre.count Event.removeFile = 0 := List.count_eq_zero.mpr hpre
    have h0e : (Event.spawnExecute ::
        (processExec env.killFails env.execEvts).kills.map Event.killExecute).count
          Event.removeFile = 0 := by
      simp [List.count_cons]
    simp [List.count_append, h0, h0e]

/-- Witness for C8: a missing execute command on a compile-free language. -/
theorem c8_execute_infra_errors_normalized_witness :
    ∃ trace,
      runCode jobPy
          { baseEnv with spec := { pySpec with executeCodeCommand := none } } =
        some (RunOutcome.returned
                { status := none, output := "", error := "Executable not found",
                  language := "python", info := "i" }, trace) ∧
      trace.count Event.removeFile = 1 ∧
      ("Executable not found" : String) ≠ "" :=
  (c8_execute_infra_errors_normalized jobPy
      { baseEnv with spec := { pySpec with executeCodeCommand := none } }
      (by decide) rfl (Or.inl rfl)).1 rfl

/-- C9: each promise settles exactly once — the first of timer, `error`
event, or `exit`/`close` wins — and once settled, any further events are
no-ops that never change or re-deliver the settled value, for the execute
and the compile machine alike. -/
theorem c9_promise_settles_exactly_once :
    (∀ kf l, (processExec kf l).resolveCount =
      (if l.any isTerminalE then 1 else 0)) ∧
    (∀ kf l extra, (processExec kf l).isResolved = true →
      (processExec kf (l ++ extra)).result = (processExec kf l).result) ∧
    (∀ l, (processCompile l).resolveCount =
      (if l.any isTerminalC then 1 else 0)) ∧
    (∀ l extra, (processCompile l).isResolved = true →
      (processCompile (l ++ extra)).result = (processCompile l).result) := by
  refine ⟨fun kf l => ?_, fun kf l extra h => processExec_stable kf l extra h,
    fun l => ?_, fun l extra h => processCompile_stable l extra h⟩
  · have := (processExecFrom_count kf execInit l rfl).1
    simpa [processExec, execInit] using this
  · have := (processCompileFrom_count compileInit l rfl).1
    simpa [processCompile, compileInit] using this

/-- Witness for C9: a timer that fires first settles the promise once,
and a late `close` event does not change the settled value. -/
theorem c9_promise_settles_exactly_once_witness :
    (processExec false [ExecEvt.timerFire]).resolveCount =
      (if [ExecEvt.timerFire].any isTerminalE then 1 else 0) ∧
    (processExec false ([ExecEvt.timerFire] ++ [ExecEvt.closeEvt (some 0) none])).result =
      (processExec false [ExecEvt.timerFire]).result :=
  ⟨c9_promise_settles_exactly_once.1 false [ExecEvt.timerFire],
   c9_promise_settles_exactly_once.2.1 false [ExecEvt.timerFire]
     [ExecEvt.closeEvt (some 0) none] rfl⟩

/-- C10 (implicit): every compile-failure response (non-zero exit, spawn
error, or timeout of the compiler) is returned — not thrown — carrying
`status = 200`, the status of a successful request, distinguishable only
by its non-empty `error` text; validation failures, by contrast, are
thrown with status 400. -/
theorem c10_compile_failure_carries_status_200 (job : Job) (env : Env)
    (cc : String) (ds : List CompileEvt) (t : CompileEvt) (rest : List CompileEvt)
    (h1 : ¬ job.code = "")
    (h2 : env.supportedLanguages.contains job.language = true)
    (hc : env.spec.compileCodeCommand = some cc)
    (he : env.compileEvts = ds ++ t :: rest)
    (hd : ∀ e ∈ ds, isDataC e = true)
    (ht : isTerminalC t = true)
    (hne : t ≠ CompileEvt.exitEvt (some 0)) :
    (∃ trace, runCode job env =
        some (RunOutcome.returned
                { status := some 200, output := "", error := compileFailMsg t ds,
                  language := job.language, info := env.infoStr }, trace) ∧
      compileFailMsg t ds ≠ "") ∧
    (∀ (job2 : Job) (env2 : Env),
      job2.code = "" ∨ env2.supportedLanguages.contains job2.language = false →
      ∃ msg, runCode job2 env2 = some (RunOutcome.thrown 400 msg, [])) := by
  constructor
  · have hres := processCompile_first_fail ds t rest hd ht hne
    rw [← he] at hres
    exact ⟨_, runCode_compile_fail job env cc
        { status := 200, output := "", error := compileFailMsg t ds } h1 h2 hc hres,
      compileFailMsg_ne_empty t ds ht⟩
  · intro job2 env2 hbad
    by_cases hb1 : job2.code = ""
    · exact ⟨_, runCode_emptyCode job2 env2 hb1⟩
    · cases hbad with
      | inl hcq => exact absurd hcq hb1
      | inr hl => exact ⟨_, runCode_badLanguage job2 env2 hb1 hl⟩

/-- Witness for C10: a compiler spawn error. -/
theorem c10_compile_failure_carries_status_200_witness :
    (∃ trace,
      runCode jobJava
          { baseEnv with
            spec := javaSpec,
            compileEvts := [CompileEvt.errorEvt "spawn javac ENOENT"] } =
        some (RunOutcome.returned
                { status := some 200, output := "",
                  error := compileFailMsg (CompileEvt.errorEvt "spawn javac ENOENT") [],
                  language := "java", info := "i" }, trace) ∧
      compileFailMsg (CompileEvt.errorEvt "spawn javac ENOENT") [] ≠ "") ∧
    (∀ (job2 : Job) (env2 : Env),
      job2.code = "" ∨ env2.supportedLanguages.contains job2.language = false →
      ∃ msg, runCode job2 env2 = some (RunOutcome.thrown 400 msg, [])) :=
  c10_compile_failure_carries_status_200 jobJava
    { baseEnv with
      spec := javaSpec,
      compileEvts := [CompileEvt.errorEvt "spawn javac ENOENT"] }
    "javac" [] (CompileEvt.errorEvt "spawn javac ENOENT") []
    (by decide) rfl rfl rfl (by decide) rfl (by decide)

end RunCode
